import Mathlib

/-!
Verification of the async package: a concurrency-limited goroutine launcher
(async.go) and a fixed-size worker pool over a bounded FIFO queue (pool.go).
We shallowly embed the data model and the control flow of the relevant
functions and prove the specified properties about them.
-/

/-- Go durations, in nanoseconds (time.Duration). -/
abbrev Duration := Nat

/-- One second, in nanoseconds (time.Second). -/
def second : Duration := 1000000000

/-!
Go context model.  A context is a chain of derivations from context.Background:
WithValue adds a key/value pair, WithCancel attaches a cancel scope with a
fresh id, WithTimeout attaches a deadline scope with a fresh id.  Whether a
context reports cancellation depends on which cancel/timeout scopes have
fired, which we model as a list of fired scope ids.
-/

/-- Shallow embedding of context.Context as a derivation chain. -/
inductive Context where
  | background : Context
  | withValue (parent : Context) (key value : String) : Context
  | withCancel (parent : Context) (id : Nat) : Context
  | withTimeout (parent : Context) (id : Nat) (d : Duration) : Context
deriving DecidableEq

/-- Value lookup (ctx.Value): walks up the chain, the innermost write wins. -/
def Context.value : Context → String → Option String
  | .background, _ => none
  | .withValue p k v, key => if key = k then some v else p.value key
  | .withCancel p _, key => p.value key
  | .withTimeout p _ _, key => p.value key

/-- A context reports cancellation (ctx.Done closed / ctx.Err non-nil) when
any cancel or timeout scope on its chain has fired. -/
def Context.isCanceled (fired : List Nat) : Context → Bool
  | .background => false
  | .withValue p _ _ => p.isCanceled fired
  | .withCancel p id => fired.contains id || p.isCanceled fired
  | .withTimeout p id _ => fired.contains id || p.isCanceled fired

/-- Whether a context carries any deadline (ctx.Deadline returns ok). -/
def Context.hasDeadline : Context → Bool
  | .background => false
  | .withValue p _ _ => p.hasDeadline
  | .withCancel p _ => p.hasDeadline
  | .withTimeout _ _ _ => true

/-!
Context isolation.  The pool (pool.go Pool.asyncContext) uses Injector values:
an injector receives the source context and a Carrier whose only operation is
Set(key, value string); ctxCarrier.Set wraps the accumulated context with
context.WithValue.  We model an injector by the sequence of Set calls it
makes for a given source context.  The launcher (async.go asyncContext) uses
ContextPropagator values: arbitrary functions from (from, to) to a context.
-/

/-- An Injector, modeled by the list of Set(key, value) calls it performs on
the carrier for a given source context (ctxCarrier only exposes Set). -/
def Injector := Context → List (String × String)

/-- ctxCarrier.Set: wraps the carried context with context.WithValue. -/
def ctxCarrierSet (c : Context) (kv : String × String) : Context :=
  Context.withValue c kv.1 kv.2

/-- Applies a sequence of carrier Set calls in order. -/
def setAll (c : Context) (kvs : List (String × String)) : Context :=
  kvs.foldl ctxCarrierSet c

/-- Pool.asyncContext (pool.go): starts from context.Background and lets each
registered injector, in registration order, write values through the carrier. -/
def poolAsyncContext (injs : List Injector) (ctx : Context) : Context :=
  injs.foldl (fun acc inj => setAll acc (inj ctx)) Context.background

/-- A ContextPropagator (async.go): MoveToContext(from, to) returns a context. -/
def ContextPropagator := Context → Context → Context

/-- asyncContext (async.go): starts from context.Background and folds the
registered propagators over it in registration order. -/
def asyncContext (ctx : Context) (props : List ContextPropagator) : Context :=
  props.foldl (fun acc p => p ctx acc) Context.background

/-- A propagator is a value-copy rule when, for every pair of contexts, it
only extends the destination with WithValue wrappings (the contract of the
spec: rules copy zero or more named values from source to destination). -/
def ValueCopyRule (p : ContextPropagator) : Prop :=
  ∀ f t, ∃ kvs : List (String × String), p f t = setAll t kvs

/-!
Error model.  Go errors are modeled as trees of wrappings: mk is
errors.New / a plain fmt.Errorf message, wrap is fmt.Errorf with a prefix and
a %w-wrapped inner error, and timeoutTagged is the distinct declared type
errorTimeout from async.go wrapping an inner error.
-/

/-- Shallow embedding of the Go error values this package builds. -/
inductive GoError where
  | mk (msg : String) : GoError
  | wrap (pre : String) (inner : GoError) : GoError
  | timeoutTagged (inner : GoError) : GoError
deriving DecidableEq

/-- Whether an error is of the declared type errorTimeout (async.go line 9);
a type assertion against errorTimeout succeeds exactly on these. -/
def isTimeoutTagged : GoError → Bool
  | .timeoutTagged _ => true
  | _ => false

/-- A recovered panic value: either already an error (the type assertion
r.(error) succeeds) or an arbitrary value formatted by its string form. -/
inductive PanicValue where
  | errVal (e : GoError) : PanicValue
  | strVal (s : String) : PanicValue
deriving DecidableEq

/-- Conversion of a panic value to an error inside recoverPanic: if the type
assertion succeeds the value is used as the error, otherwise the value is
formatted into a string-derived error. -/
def panicToError : PanicValue → GoError
  | .errVal e => e
  | .strVal s => .mk s

/-- There are three ways a submitted function can terminate: normal return
with nil, return with a non-nil error, or a panic. -/
inductive Outcome where
  | ok : Outcome
  | errs (e : GoError) : Outcome
  | panics (v : PanicValue) : Outcome
deriving DecidableEq

/-- Observable effects of running a task body: reporter invocations, the
release of the guard slot, and cancellation of the derived timeout context. -/
inductive Effect where
  | report (e : GoError) : Effect
  | release : Effect
  | cancel : Effect
deriving DecidableEq

/-- Reporter invocations among a list of actions, in order. -/
def reportsOf (acts : List Effect) : List GoError :=
  acts.filterMap (fun a => match a with | .report e => some e | _ => none)

/-- Whether an action releases the guard slot. -/
def isRelease : Effect → Bool
  | .release => true
  | _ => false

/-- Number of guard-slot releases among a list of actions. -/
def releaseCount (acts : List Effect) : Nat :=
  acts.countP isRelease

/-- recoverPanic (async.go lines 103-112): if recover returns a non-nil value
the guard converts it to an error, wraps it and reports it, and returns
normally; the Bool records whether a panic is still propagating afterwards,
which is false in every case because recover consumed it. -/
def recoverPanic : Option PanicValue → List Effect × Bool
  | none => ([], false)
  | some v => ([.report (.wrap "mmasyc recoverPanic" (panicToError v))], false)

/-- Main part of the goroutine body of RunAsync (async.go lines 72-86),
before the deferred calls run: returns the pending panic value, if any, and
the actions performed so far (reporting a wrapped non-nil error). -/
def runAsyncMain : Outcome → Option PanicValue × List Effect
  | .ok => (none, [])
  | .errs e => (none, [.report (.wrap "async func failed" e)])
  | .panics v => (some v, [])

/-- Full goroutine body of RunAsync: the main part, then the deferred calls
in LIFO order: recoverPanic (registered second) runs first, then the first
deferred closure cancels the timeout context and releases the guard slot. -/
def runAsyncBody (o : Outcome) : List Effect :=
  let m := runAsyncMain o
  m.2 ++ (recoverPanic m.1).1 ++ [.cancel, .release]

/-- Main part of worker.handleData (pool.go lines 116-126) before the
deferred calls: reporting a non-nil handler error wrapped with the
handleData prefix, or a pending panic. -/
def handleDataMain : Outcome → Option PanicValue × List Effect
  | .ok => (none, [])
  | .errs e => (none, [.report (.wrap "async handleData" e)])
  | .panics v => (some v, [])

/-- Full worker.handleData: the main part, then the deferred calls in LIFO
order: recoverPanic (registered second) first, then cancelFunc.  The Bool is
true when a panic escapes handleData and would kill the worker goroutine. -/
def handleData (o : Outcome) : List Effect × Bool :=
  let m := handleDataMain o
  let r := recoverPanic m.1
  (m.2 ++ r.1 ++ [.cancel], r.2)

/-- worker.startReceivingData (pool.go lines 108-114): the worker loops over
the received items, calling handleData on each; the loop stops early only if
a panic escapes handleData.  Returns the reports in order and the number of
items actually handled. -/
def workerRun : List Outcome → List GoError × Nat
  | [] => ([], 0)
  | o :: rest =>
    let h := handleData o
    if h.2 then (reportsOf h.1, 1)
    else
      let w := workerRun rest
      (reportsOf h.1 ++ w.1, w.2 + 1)

/-!
Configuration.  New (async.go lines 46-65) folds the option functions over the
default Config; the guard channel is created with capacity maxGoRoutines.
NewPool (pool.go lines 49-81) folds PoolOption functions over a PoolConfig
literal.  Note: the PoolConfig literal in pool.go initializes a field named
timeoutForGoroutine and the workers read conf.timeoutForGoroutine, while
option.go declares the per-task field as timeoutForFN, which is the field
WithPoolTimeoutForFN writes; we carry both fields so that both sides of the
discrepancy are expressible, with timeoutForFN starting at the Go zero value
because the literal in NewPool does not mention it.
-/

/-- Async launcher configuration (Config in option.go, restricted to the
fields RunAsync consumes). -/
structure AsyncConfig where
  maxGoRoutines : Nat
  timeoutForGuard : Duration
  timeoutForGoRoutine : Duration
deriving DecidableEq

/-- An AsyncOption mutates the configuration (option.go). -/
def AsyncOption := AsyncConfig → AsyncConfig

/-- Default slot capacity (async.go: defaultMaxGoRoutines = 100). -/
def defaultMaxGoRoutines : Nat := 100

/-- Default guard-acquire timeout (async.go: 5 seconds). -/
def defaultTimeoutForGuard : Duration := 5 * second

/-- Default per-goroutine timeout (async.go: 5 seconds). -/
def defaultTimeoutForGoRoutine : Duration := 5 * second

/-- New (async.go): applies the options to the default configuration; the
guard channel capacity is the resulting maxGoRoutines. -/
def New (options : List AsyncOption) : AsyncConfig :=
  options.foldl (fun c op => op c)
    { maxGoRoutines := defaultMaxGoRoutines
      timeoutForGuard := defaultTimeoutForGuard
      timeoutForGoRoutine := defaultTimeoutForGoRoutine }

/-- WithMaxGoRoutines (option.go lines 35-39). -/
def WithMaxGoRoutines (n : Nat) : AsyncOption :=
  fun c => { c with maxGoRoutines := n }

/-- WithTimeoutForGuard (option.go lines 17-21). -/
def WithTimeoutForGuard (t : Duration) : AsyncOption :=
  fun c => { c with timeoutForGuard := t }

/-- WithTimeoutForGoRoutine (option.go lines 23-27). -/
def WithTimeoutForGoRoutine (t : Duration) : AsyncOption :=
  fun c => { c with timeoutForGoRoutine := t }

/-- Pool configuration (PoolConfig in option.go plus the timeoutForGoroutine
field the pool.go literal references; see the section comment above). -/
structure PoolConfig where
  timeoutForFN : Duration
  timeoutForInsertToPool : Duration
  poolSize : Nat
  numberOfWorkers : Nat
  timeoutForGoroutine : Duration
deriving DecidableEq

/-- A PoolOption mutates the pool configuration (option.go). -/
def PoolOption := PoolConfig → PoolConfig

/-- Default insert-to-pool timeout (pool.go: 5 seconds). -/
def defaulttimeoutInsertToPool : Duration := 5 * second

/-- Default number of workers (pool.go: 10). -/
def defaultNumWorkers : Nat := 10

/-- Default queue capacity (pool.go: 100). -/
def defaultPoolSize : Nat := 100

/-- WithPoolTimeoutForFN (option.go lines 62-66): writes timeoutForFN. -/
def WithPoolTimeoutForFN (t : Duration) : PoolOption :=
  fun c => { c with timeoutForFN := t }

/-- WithPoolTimeoutInsertToPool (option.go lines 68-74). -/
def WithPoolTimeoutInsertToPool (t : Duration) : PoolOption :=
  fun c => { c with timeoutForInsertToPool := t }

/-- WithPoolNumberOfWorkers (option.go). -/
def WithPoolNumberOfWorkers (n : Nat) : PoolOption :=
  fun c => { c with numberOfWorkers := n }

/-- WithPoolSize (option.go). -/
def WithPoolSize (n : Nat) : PoolOption :=
  fun c => { c with poolSize := n }

/-- The observable construction result of NewPool: channel capacity, insert
timeout, worker count, and the timeout each worker stores and later applies
through context.WithTimeout in handleData. -/
structure PoolModel where
  queueCap : Nat
  timeoutInsertToPool : Duration
  numWorkers : Nat
  workerTimeout : Duration
deriving DecidableEq

/-- NewPool (pool.go lines 49-81): folds the options over the PoolConfig
literal, whose timeoutForGoroutine field is the 5 second default and whose
timeoutForFN field is left at the Go zero value; each worker receives
timeout = conf.timeoutForGoroutine. -/
def NewPool (options : List PoolOption) : PoolModel :=
  let conf := options.foldl (fun c op => op c)
    { timeoutForFN := 0
      timeoutForInsertToPool := defaulttimeoutInsertToPool
      poolSize := defaultPoolSize
      numberOfWorkers := defaultNumWorkers
      timeoutForGoroutine := defaultTimeoutForGoRoutine : PoolConfig }
  { queueCap := conf.poolSize
    timeoutInsertToPool := conf.timeoutForInsertToPool
    numWorkers := conf.numberOfWorkers
    workerTimeout := conf.timeoutForGoroutine }

/-!
Admission.  RunAsync selects between sending into the buffered guard channel
and the guard timeout firing.  The send succeeds exactly when the channel has
buffer room, that is when the number of currently held slots is below the
capacity (for capacity zero the channel is unbuffered, a send needs a
simultaneously blocked receiver, and receivers only arise from previously
admitted tasks, so no send can ever succeed, which the same inequality
expresses).  The result records whether the goroutine was started and the
reporter invocations made. -/

/-- The distinct admission-timeout error of RunAsync (async.go line 89):
errorTimeout wrapping the guard-timeout message. -/
def guardTimeoutError : GoError :=
  .timeoutTagged (.mk "async timeout while waiting to guard")

/-- Result of one RunAsync call: whether fn was started on a new goroutine,
and the reporter invocations attributable to the call. -/
structure RunAsyncResult where
  started : Bool
  reports : List GoError
deriving DecidableEq

/-- RunAsync (async.go lines 67-91): with held slots below capacity the send
into the guard channel succeeds and the goroutine body runs fn with the given
outcome; otherwise the time.After branch fires, exactly one errorTimeout is
reported, and fn never runs. -/
def RunAsync (held cap : Nat) (o : Outcome) : RunAsyncResult :=
  if held < cap then ⟨true, reportsOf (runAsyncBody o)⟩
  else ⟨false, [guardTimeoutError]⟩

/-- The distinct dispatch-timeout error (pool.go line 94). -/
def dispatchTimeoutError : GoError :=
  .mk "pool.Dispatch channel is full, timeout waiting for dispatch"

/-- Pool.Dispatch (pool.go lines 84-98): the spawned goroutine selects between
sending the item into the data channel and the insert timeout.  The queue
argument is the channel content over the waiting window (the full branch
applies when the queue stays at capacity for the whole window, that is no
worker freed a slot in time).  Returns the new queue and the reports. -/
def Dispatch {T : Type} (cap : Nat) (q : List T) (item : T) : List T × List GoError :=
  if q.length < cap then (q ++ [item], [])
  else (q, [dispatchTimeoutError])

/-!
The guard channel as a counting semaphore.  A send into the buffered channel
(slot acquire) succeeds only while the buffer is below capacity; a receive
(slot release, from the deferred closure of an admitted task) requires a held
slot.  These are the only operations async.go performs on the guard channel.
-/

/-- State of the guard channel: number of held slots and the fixed capacity. -/
structure GuardState where
  held : Nat
  cap : Nat
deriving DecidableEq

/-- The two transitions on the guard channel in async.go: the admission send
in RunAsync and the deferred receive when an admitted task finishes. -/
inductive GuardStep : GuardState → GuardState → Prop
  | acquire (s : GuardState) (h : s.held < s.cap) :
      GuardStep s ⟨s.held + 1, s.cap⟩
  | release (s : GuardState) (h : 0 < s.held) :
      GuardStep s ⟨s.held - 1, s.cap⟩

/-- States reachable from the freshly constructed guard channel, which holds
no slots (make(chan struct, cap)). -/
def GuardReachable (cap : Nat) (s : GuardState) : Prop :=
  Relation.ReflTransGen GuardStep ⟨0, cap⟩ s

/-!
The data channel as a bounded FIFO queue.  Pool.Dispatch appends at the tail
(channel send, admitted only below capacity) and the worker range loop removes
from the head (channel receive).  We log successful enqueues and dequeues to
state the ordering guarantee.
-/

/-- State of the pool data channel plus the two histories needed to state
FIFO delivery: the log of successfully enqueued items and the log of items
delivered to workers, each in order. -/
structure QueueState (T : Type) where
  pending : List T
  enqueuedLog : List T
  deliveredLog : List T

/-- The two transitions on the data channel in pool.go: the Dispatch send
(admitted while the buffer is below capacity) and the worker receive, which
always takes the oldest buffered item. -/
inductive QueueStep (cap : Nat) {T : Type} : QueueState T → QueueState T → Prop
  | enqueue (s : QueueState T) (x : T) (h : s.pending.length < cap) :
      QueueStep cap s ⟨s.pending ++ [x], s.enqueuedLog ++ [x], s.deliveredLog⟩
  | dequeue (s : QueueState T) (x : T) (rest : List T) (h : s.pending = x :: rest) :
      QueueStep cap s ⟨rest, s.enqueuedLog, s.deliveredLog ++ [x]⟩

/-- States reachable from the freshly constructed empty data channel. -/
def QueueReachable (cap : Nat) {T : Type} (s : QueueState T) : Prop :=
  Relation.ReflTransGen (QueueStep cap) ⟨[], [], []⟩ s

/-!
Theorems.  Helper lemmas first, then one theorem per claim.
-/

/-- Wrapping a context with carrier Set calls never changes whether it
reports cancellation. -/
theorem setAll_isCanceled (fired : List Nat) (kvs : List (String × String))
    (c : Context) : (setAll c kvs).isCanceled fired = c.isCanceled fired := by
  induction kvs generalizing c with
  | nil => rfl
  | cons kv rest ih =>
    show (setAll (ctxCarrierSet c kv) rest).isCanceled fired = c.isCanceled fired
    rw [ih]
    rfl

/-- Wrapping a context with carrier Set calls never adds a deadline. -/
theorem setAll_hasDeadline (kvs : List (String × String)) (c : Context) :
    (setAll c kvs).hasDeadline = c.hasDeadline := by
  induction kvs generalizing c with
  | nil => rfl
  | cons kv rest ih =>
    show (setAll (ctxCarrierSet c kv) rest).hasDeadline = c.hasDeadline
    rw [ih]
    rfl

/-- A key not written by any of the Set calls still resolves as it did before
the calls. -/
theorem setAll_value_not_written (k : String) (kvs : List (String × String))
    (c : Context) (h : ∀ kv ∈ kvs, kv.1 ≠ k) :
    (setAll c kvs).value k = c.value k := by
  induction kvs generalizing c with
  | nil => rfl
  | cons kv rest ih =>
    show (setAll (ctxCarrierSet c kv) rest).value k = c.value k
    rw [ih (ctxCarrierSet c kv) (fun kv2 hm => h kv2 (List.mem_cons_of_mem kv hm))]
    show (if k = kv.1 then some kv.2 else c.value k) = c.value k
    rw [if_neg (fun hk => h kv (List.mem_cons_self kv rest) hk.symm)]

/-- The injector fold of Pool.asyncContext preserves the cancellation state
of its accumulator. -/
theorem poolFold_isCanceled (fired : List Nat) (ctx : Context) :
    ∀ (injs : List Injector) (c : Context),
      ((injs.foldl (fun acc inj => setAll acc (inj ctx)) c).isCanceled fired)
        = c.isCanceled fired := by
  intro injs
  induction injs with
  | nil => intro c; rfl
  | cons i rest ih =>
    intro c
    show ((rest.foldl (fun acc inj => setAll acc (inj ctx))
      (setAll c (i ctx))).isCanceled fired) = c.isCanceled fired
    rw [ih (setAll c (i ctx)), setAll_isCanceled]

/-- The injector fold of Pool.asyncContext preserves deadline-freedom. -/
theorem poolFold_hasDeadline (ctx : Context) :
    ∀ (injs : List Injector) (c : Context),
      ((injs.foldl (fun acc inj => setAll acc (inj ctx)) c).hasDeadline)
        = c.hasDeadline := by
  intro injs
  induction injs with
  | nil => intro c; rfl
  | cons i rest ih =>
    intro c
    show ((rest.foldl (fun acc inj => setAll acc (inj ctx))
      (setAll c (i ctx))).hasDeadline) = c.hasDeadline
    rw [ih (setAll c (i ctx)), setAll_hasDeadline]

/-- A key no injector writes resolves in the injector fold as it resolves in
the accumulator. -/
theorem poolFold_value_not_written (k : String) (ctx : Context) :
    ∀ (injs : List Injector) (c : Context),
      (∀ inj ∈ injs, ∀ kv ∈ inj ctx, kv.1 ≠ k) →
      ((injs.foldl (fun acc inj => setAll acc (inj ctx)) c).value k)
        = c.value k := by
  intro injs
  induction injs with
  | nil => intro c _; rfl
  | cons i rest ih =>
    intro c h
    show ((rest.foldl (fun acc inj => setAll acc (inj ctx))
      (setAll c (i ctx))).value k) = c.value k
    rw [ih (setAll c (i ctx)) (fun inj hm => h inj (List.mem_cons_of_mem i hm)),
      setAll_value_not_written k (i ctx) c (h i (List.mem_cons_self i rest))]

/-- The propagator fold of asyncContext preserves the cancellation state of
its accumulator as long as every propagator is a value-copy rule. -/
theorem propsFold_isCanceled (fired : List Nat) (ctx : Context) :
    ∀ (props : List ContextPropagator) (c : Context),
      (∀ p ∈ props, ValueCopyRule p) →
      ((props.foldl (fun acc p => p ctx acc) c).isCanceled fired)
        = c.isCanceled fired := by
  intro props
  induction props with
  | nil => intro c _; rfl
  | cons p rest ih =>
    intro c hp
    show ((rest.foldl (fun acc q => q ctx acc) (p ctx c)).isCanceled fired)
      = c.isCanceled fired
    obtain ⟨kvs, hkvs⟩ := hp p (List.mem_cons_self p rest) ctx c
    rw [ih (p ctx c) (fun q hq => hp q (List.mem_cons_of_mem p hq)), hkvs,
      setAll_isCanceled]

/-- The propagator fold of asyncContext preserves deadline-freedom as long as
every propagator is a value-copy rule. -/
theorem propsFold_hasDeadline (ctx : Context) :
    ∀ (props : List ContextPropagator) (c : Context),
      (∀ p ∈ props, ValueCopyRule p) →
      ((props.foldl (fun acc p => p ctx acc) c).hasDeadline) = c.hasDeadline := by
  intro props
  induction props with
  | nil => intro c _; rfl
  | cons p rest ih =>
    intro c hp
    show ((rest.foldl (fun acc q => q ctx acc) (p ctx c)).hasDeadline)
      = c.hasDeadline
    obtain ⟨kvs, hkvs⟩ := hp p (List.mem_cons_self p rest) ctx c
    rw [ih (p ctx c) (fun q hq => hp q (List.mem_cons_of_mem p hq)), hkvs,
      setAll_hasDeadline]

/-- Claim C1: the context handed to the task is built from a fresh background
context by applying the registered rules in registration order (this is the
definition of poolAsyncContext and asyncContext); it reports no cancellation
no matter which caller-side cancel scopes have fired, carries no deadline,
and carries no values of the caller context beyond those the rules copy; in
particular canceling the caller context after submission never makes the
task context report cancellation. -/
theorem isolated_context_carries_nothing_from_caller
    (ctx : Context) (injs : List Injector) (props : List ContextPropagator)
    (fired : List Nat) (hprops : ∀ p ∈ props, ValueCopyRule p) :
    (poolAsyncContext injs ctx).isCanceled fired = false
    ∧ (poolAsyncContext injs ctx).hasDeadline = false
    ∧ (∀ k : String, (∀ inj ∈ injs, ∀ kv ∈ inj ctx, kv.1 ≠ k) →
        (poolAsyncContext injs ctx).value k = none)
    ∧ (asyncContext ctx props).isCanceled fired = false
    ∧ (asyncContext ctx props).hasDeadline = false := by
  refine ⟨?_, ?_, ?_, ?_, ?_⟩
  · rw [poolAsyncContext, poolFold_isCanceled fired ctx injs Context.background]
    rfl
  · rw [poolAsyncContext, poolFold_hasDeadline ctx injs Context.background]
    rfl
  · intro k hk
    rw [poolAsyncContext, poolFold_value_not_written k ctx injs Context.background hk]
    rfl
  · rw [asyncContext, propsFold_isCanceled fired ctx props Context.background hprops]
    rfl
  · rw [asyncContext, propsFold_hasDeadline ctx props Context.background hprops]
    rfl

/-- A caller context canceled through cancel scope 0, carrying a value no
rule copies. -/
def callerCtx : Context :=
  Context.withCancel (Context.withValue Context.background "someOtherKey" "someOtherValue") 0

/-- An injector copying one trace value, as in the async_test.go injector. -/
def traceInjector : Injector := fun _ => [("someKey", "someValue")]

/-- A propagator copying one trace value, as in the readme example. -/
def traceProp : ContextPropagator :=
  fun _ t => Context.withValue t "someKey" "someValue"

/-- Witness for claim C1 at a concrete canceled caller context with one
registered rule on each side. -/
theorem isolated_context_carries_nothing_from_caller_witness :
    (poolAsyncContext [traceInjector] callerCtx).isCanceled [0] = false
    ∧ (poolAsyncContext [traceInjector] callerCtx).value "someOtherKey" = none
    ∧ (asyncContext callerCtx [traceProp]).isCanceled [0] = false
    ∧ callerCtx.isCanceled [0] = true := by
  have h := isolated_context_carries_nothing_from_caller callerCtx
    [traceInjector] [traceProp] [0]
    (by intro p hp
        rw [List.mem_singleton] at hp
        subst hp
        intro f t
        exact ⟨[("someKey", "someValue")], rfl⟩)
  refine ⟨h.1, h.2.2.1 "someOtherKey" ?_, h.2.2.2.1, by decide⟩
  intro inj hinj kv hkv
  rw [List.mem_singleton] at hinj
  subst hinj
  rw [show traceInjector callerCtx = [("someKey", "someValue")] from rfl,
    List.mem_singleton] at hkv
  subst hkv
  decide

/-- Each guard-channel transition keeps the held count within the capacity
and never changes the capacity. -/
theorem guardStep_preserves (s t : GuardState) (h : GuardStep s t) :
    (s.held ≤ s.cap → t.held ≤ t.cap) ∧ t.cap = s.cap := by
  cases h with
  | acquire h => exact ⟨fun _ => h, rfl⟩
  | release h => exact ⟨fun hs => le_trans (Nat.sub_le _ _) hs, rfl⟩

/-- Every reachable guard-channel state holds at most capacity many slots. -/
theorem guardReachable_invariant (cap : Nat) (s : GuardState)
    (h : GuardReachable cap s) : s.held ≤ s.cap ∧ s.cap = cap := by
  induction h with
  | refl => exact ⟨Nat.zero_le _, rfl⟩
  | tail hs step ih =>
    obtain ⟨h1, h2⟩ := guardStep_preserves _ _ step
    exact ⟨h1 ih.1, h2.trans ih.2⟩

/-- The reporter invocations of the RunAsync goroutine body, by outcome. -/
theorem runAsyncBody_reports_ok : reportsOf (runAsyncBody .ok) = [] := rfl

/-- A task returning a non-nil error yields exactly the one wrapped report. -/
theorem runAsyncBody_reports_errs (e : GoError) :
    reportsOf (runAsyncBody (.errs e)) = [.wrap "async func failed" e] := rfl

/-- A panicking task yields exactly the one recovered report. -/
theorem runAsyncBody_reports_panics (v : PanicValue) :
    reportsOf (runAsyncBody (.panics v))
      = [.wrap "mmasyc recoverPanic" (panicToError v)] := rfl

/-- Claim C2: in every state reachable on the guard channel the number of
held slots is at most the configured capacity (default 100), and the RunAsync
goroutine body releases its slot exactly once on every exit path: normal
return, error return, and panic. -/
theorem guard_capacity_and_single_release (cap : Nat) (s : GuardState)
    (h : GuardReachable cap s) (o : Outcome) :
    s.held ≤ s.cap
    ∧ s.cap = cap
    ∧ releaseCount (runAsyncBody o) = 1
    ∧ (New []).maxGoRoutines = 100 := by
  refine ⟨(guardReachable_invariant cap s h).1,
    (guardReachable_invariant cap s h).2, ?_, rfl⟩
  cases o <;> rfl

/-- Witness for claim C2 at the state reached after one admission on the
default capacity, for each of the three exit paths. -/
theorem guard_capacity_and_single_release_witness :
    (1 : Nat) ≤ 100
    ∧ releaseCount (runAsyncBody Outcome.ok) = 1
    ∧ releaseCount (runAsyncBody (Outcome.errs (.mk "boom"))) = 1
    ∧ releaseCount (runAsyncBody (Outcome.panics (.strVal "aaaa"))) = 1 := by
  have hreach : GuardReachable 100 ⟨1, 100⟩ :=
    Relation.ReflTransGen.tail Relation.ReflTransGen.refl
      (GuardStep.acquire ⟨0, 100⟩ (by decide))
  exact ⟨(guard_capacity_and_single_release 100 ⟨1, 100⟩ hreach Outcome.ok).1,
    (guard_capacity_and_single_release 100 ⟨1, 100⟩ hreach Outcome.ok).2.2.1,
    (guard_capacity_and_single_release 100 ⟨1, 100⟩ hreach
      (Outcome.errs (.mk "boom"))).2.2.1,
    (guard_capacity_and_single_release 100 ⟨1, 100⟩ hreach
      (Outcome.panics (.strVal "aaaa"))).2.2.1⟩

/-- Claim C3: when a slot is free within the guard window RunAsync starts fn;
otherwise it reports exactly one errorTimeout-tagged error and never runs fn;
task-execution reports are never errorTimeout-tagged, so the admission
timeout is tagged distinctly from them. -/
theorem runAsync_admission_or_distinct_timeout (held cap : Nat) (o : Outcome) :
    (held < cap → (RunAsync held cap o).started = true)
    ∧ (∀ e ∈ reportsOf (runAsyncBody o), isTimeoutTagged e = false)
    ∧ (¬ held < cap →
        (RunAsync held cap o).started = false
        ∧ (RunAsync held cap o).reports = [guardTimeoutError]
        ∧ isTimeoutTagged guardTimeoutError = true) := by
  refine ⟨fun h => by simp [RunAsync, h], ?_,
    fun h => ⟨by simp [RunAsync, h], by simp [RunAsync, h], rfl⟩⟩
  cases o with
  | ok =>
    intro e he
    rw [runAsyncBody_reports_ok] at he
    exact absurd he (List.not_mem_nil e)
  | errs e2 =>
    intro e he
    rw [runAsyncBody_reports_errs, List.mem_singleton] at he
    subst he
    rfl
  | panics v =>
    intro e he
    rw [runAsyncBody_reports_panics, List.mem_singleton] at he
    subst he
    rfl

/-- Witness for claim C3: a free slot starts the task, a saturated guard
produces exactly the tagged timeout report. -/
theorem runAsync_admission_or_distinct_timeout_witness :
    (RunAsync 0 1 Outcome.ok).started = true
    ∧ (RunAsync 1 1 Outcome.ok).started = false
    ∧ (RunAsync 1 1 Outcome.ok).reports = [guardTimeoutError] := by
  refine ⟨(runAsync_admission_or_distinct_timeout 0 1 Outcome.ok).1 (by decide),
    ?_, ?_⟩
  · exact ((runAsync_admission_or_distinct_timeout 1 1 Outcome.ok).2.2 (by decide)).1
  · exact ((runAsync_admission_or_distinct_timeout 1 1 Outcome.ok).2.2 (by decide)).2.1

/-- No panic ever escapes handleData: the deferred recoverPanic consumes it. -/
theorem handleData_no_escape (o : Outcome) : (handleData o).2 = false := by
  cases o <;> rfl

/-- Claim C4: every pool worker runs the handler through the panic guard; a
panicking item yields exactly one recovered report, the panic never escapes,
and the worker consumes every item of its stream, including those after a
panicking one. -/
theorem worker_survives_panics (items : List Outcome) :
    (workerRun items).2 = items.length
    ∧ (∀ v : PanicValue,
        reportsOf (handleData (.panics v)).1
          = [.wrap "mmasyc recoverPanic" (panicToError v)]
        ∧ (handleData (.panics v)).2 = false) := by
  refine ⟨?_, fun v => ⟨rfl, rfl⟩⟩
  induction items with
  | nil => rfl
  | cons o rest ih =>
    simp [workerRun, handleData_no_escape o, ih]

/-- Claim C6: recoverPanic never re-raises; a nil recover reports nothing, a
panic value that is already an error is wrapped as that error, and any other
panic value is formatted into a string-derived error, each forwarded to the
reporter as exactly one report. -/
theorem recoverPanic_converts_and_never_reraises :
    recoverPanic none = ([], false)
    ∧ (∀ e : GoError, recoverPanic (some (.errVal e))
        = ([.report (.wrap "mmasyc recoverPanic" e)], false))
    ∧ (∀ s : String, recoverPanic (some (.strVal s))
        = ([.report (.wrap "mmasyc recoverPanic" (.mk s))], false)) :=
  ⟨rfl, fun _ => rfl, fun _ => rfl⟩

/-- Claim C5 (code divergence): WithPoolTimeoutForFN writes the timeoutForFN
field, which NewPool never reads; the workers receive conf.timeoutForGoroutine,
which no pool option sets, so the per-task deadline the workers apply stays
at the 5 second default no matter what timeout the option requested.  The
launcher side of the claim does hold: WithTimeoutForGoRoutine determines the
RunAsync per-task timeout, defaulting to 5 seconds. -/
theorem pool_timeout_for_fn_option_is_ignored :
    (NewPool [WithPoolTimeoutForFN (2 * second)]).workerTimeout
        = defaultTimeoutForGoRoutine
    ∧ defaultTimeoutForGoRoutine ≠ 2 * second
    ∧ (NewPool [WithPoolTimeoutForFN (2 * second)]).workerTimeout ≠ 2 * second
    ∧ (New []).timeoutForGoRoutine = 5 * second
    ∧ (New [WithTimeoutForGoRoutine (2 * second)]).timeoutForGoRoutine
        = 2 * second :=
  ⟨rfl, by decide, by decide, rfl, rfl⟩

/-- Claim C7: a Dispatch whose item cannot be enqueued within the insert
window because the queue stays full reports exactly one distinct queue-full
error and drops the item: the queue is unchanged, so no worker ever receives
the item, and nothing re-enqueues it; the default insert window is 5 seconds. -/
theorem dispatch_full_queue_drops_with_one_report {T : Type} (cap : Nat)
    (q : List T) (item : T) (hfull : cap ≤ q.length) :
    (Dispatch cap q item).1 = q
    ∧ (Dispatch cap q item).2 = [dispatchTimeoutError]
    ∧ dispatchTimeoutError
        = .mk "pool.Dispatch channel is full, timeout waiting for dispatch"
    ∧ (NewPool []).timeoutInsertToPool = 5 * second := by
  have h : ¬ q.length < cap := Nat.not_lt.mpr hfull
  refine ⟨by simp [Dispatch, h], by simp [Dispatch, h], rfl, rfl⟩

/-- Witness for claim C7 at a queue of capacity one holding one item. -/
theorem dispatch_full_queue_drops_with_one_report_witness :
    (Dispatch 1 [0] 1).1 = [0]
    ∧ (Dispatch 1 [0] 1).2 = [dispatchTimeoutError] := by
  have h := dispatch_full_queue_drops_with_one_report 1 [0] 1 (by decide)
  exact ⟨h.1, h.2.1⟩

/-- Claim C8: a handler returning a non-nil error produces exactly one report,
wrapped with the descriptive prefix, in both the worker (handleData) and the
launcher (RunAsync body); a nil return produces no report; and handling one
erroring item handles it exactly once with no re-dispatch. -/
theorem task_error_reported_once_and_complete (e : GoError) :
    reportsOf (handleData (.errs e)).1 = [.wrap "async handleData" e]
    ∧ reportsOf (handleData .ok).1 = []
    ∧ reportsOf (runAsyncBody (.errs e)) = [.wrap "async func failed" e]
    ∧ reportsOf (runAsyncBody .ok) = []
    ∧ workerRun [.errs e] = ([.wrap "async handleData" e], 1) :=
  ⟨rfl, rfl, rfl, rfl, rfl⟩

/-- Each data-channel transition preserves the FIFO decomposition of the
enqueue log and keeps the buffer within its capacity. -/
theorem queueStep_preserves {T : Type} (cap : Nat) (s t : QueueState T)
    (h : QueueStep cap s t) :
    (s.enqueuedLog = s.deliveredLog ++ s.pending →
      t.enqueuedLog = t.deliveredLog ++ t.pending)
    ∧ (s.pending.length ≤ cap → t.pending.length ≤ cap) := by
  cases h with
  | enqueue x hx =>
    constructor
    · intro hi
      show s.enqueuedLog ++ [x] = s.deliveredLog ++ (s.pending ++ [x])
      rw [hi, List.append_assoc]
    · intro _
      show (s.pending ++ [x]).length ≤ cap
      rw [List.length_append]
      exact hx
  | dequeue x rest hx =>
    constructor
    · intro hi
      show s.enqueuedLog = (s.deliveredLog ++ [x]) ++ rest
      rw [hi, hx, List.append_assoc]
      rfl
    · intro hl
      show rest.length ≤ cap
      rw [hx] at hl
      exact le_trans (Nat.le_succ _) hl

/-- Claim C9: in every reachable state of the data channel the log of
successful enqueues equals the log of deliveries to workers followed by the
still-buffered items, in order: deliveries happen in exactly the order of
successful enqueue (strict FIFO), and the buffer never exceeds its capacity. -/
theorem queue_fifo_order {T : Type} (cap : Nat) (s : QueueState T)
    (h : QueueReachable cap s) :
    s.enqueuedLog = s.deliveredLog ++ s.pending
    ∧ s.pending.length ≤ cap := by
  induction h with
  | refl => exact ⟨rfl, Nat.zero_le _⟩
  | tail hs step ih =>
    obtain ⟨h1, h2⟩ := queueStep_preserves cap _ _ step
    exact ⟨h1 ih.1, h2 ih.2⟩

/-- Witness for claim C9 after enqueuing 10 then 20 and delivering one item:
the delivered log followed by the buffer reproduces the enqueue order. -/
theorem queue_fifo_order_witness :
    ([10, 20] : List Nat) = [10] ++ [20] ∧ ([20] : List Nat).length ≤ 2 := by
  have s1 : QueueStep 2 (⟨[], [], []⟩ : QueueState Nat) ⟨[10], [10], []⟩ :=
    QueueStep.enqueue ⟨[], [], []⟩ 10 (by decide)
  have s2 : QueueStep 2 (⟨[10], [10], []⟩ : QueueState Nat)
      ⟨[10, 20], [10, 20], []⟩ :=
    QueueStep.enqueue ⟨[10], [10], []⟩ 20 (by decide)
  have s3 : QueueStep 2 (⟨[10, 20], [10, 20], []⟩ : QueueState Nat)
      ⟨[20], [10, 20], [10]⟩ :=
    QueueStep.dequeue ⟨[10, 20], [10, 20], []⟩ 10 [20] rfl
  have hreach : QueueReachable 2 (⟨[20], [10, 20], [10]⟩ : QueueState Nat) :=
    Relation.ReflTransGen.tail (Relation.ReflTransGen.tail
      (Relation.ReflTransGen.tail Relation.ReflTransGen.refl s1) s2) s3
  exact queue_fifo_order 2 _ hreach

/-- Claim C10: with WithMaxGoRoutines(0) the guard channel has capacity zero,
so no RunAsync call is ever admitted: whatever the submitted function would
have done, it is never started and the call reports exactly one guard-timeout
error after the guard window elapses. -/
theorem zero_capacity_always_times_out (held : Nat) (o : Outcome) :
    (New [WithMaxGoRoutines 0]).maxGoRoutines = 0
    ∧ (RunAsync held (New [WithMaxGoRoutines 0]).maxGoRoutines o).started = false
    ∧ (RunAsync held (New [WithMaxGoRoutines 0]).maxGoRoutines o).reports
        = [guardTimeoutError] := by
  refine ⟨rfl, ?_, ?_⟩ <;>
    simp [RunAsync, show (New [WithMaxGoRoutines 0]).maxGoRoutines = 0 from rfl]
